import Mathlib

/-!
Shallow embedding of `src/memory_atomic.c` (jack_mixer), a real-time-safe
chunk-pool allocator, together with proofs about its operations.

Modelling conventions:
* A chunk is identified by the `Nat` id that the modelled `malloc` handed out
  (ids are allocated in increasing order, so every fresh chunk is distinct from
  every live one).  Returning "a pointer to the chunk's data region
  (`node_ptr + 1`)" is modelled as returning the chunk id itself.
* `struct list_head` lists (`unused`, `pending`) are `List Nat` of chunk ids;
  the list head (`list.next`) is the `List.head`, `list_add_tail` appends.
* `malloc` for chunk nodes is assumed to succeed (the claims under study all
  assume every underlying system allocation succeeds); it yields id `nextId`
  and increments `nextId`.
* `pthread_mutex_trylock` in `rtsafe_memory_pool_allocate` /
  `rtsafe_memory_pool_deallocate` may succeed or fail; its outcome is passed
  in as the explicit `tryOk : Bool` argument.  `pthread_mutex_lock` in
  `rtsafe_memory_pool_sleepy` always succeeds in the single-threaded model.
* C `assert`s are erased from the plain operations (as in an NDEBUG build) and
  modelled separately by `..._checked` variants that return `none` exactly
  when some assert in the corresponding C function would fire.
-/

namespace MemoryAtomic

/-- Ids of the `n` chunks `malloc` produces starting from id `s`:
`[s, s+1, ..., s+n-1]`. -/
def freshIds : Nat → Nat → List Nat
  | _, 0 => []
  | s, n + 1 => s :: freshIds (s + 1) n

/-- State of a `struct rtsafe_memory_pool` (memory_atomic.c:32-47), plus the
`nextId` counter of the modelled `malloc`.  For a non-thread-safe pool the C
code leaves `mutex`, `unused_count2` and `pending` uninitialized and never
touches them; the model initializes them to `0` / `[]`. -/
structure Pool where
  dataSize : Nat
  minPreallocated : Nat
  maxPreallocated : Nat
  usedCount : Nat
  unused : List Nat
  unusedCount : Nat
  enforceThreadSafety : Bool
  unusedCount2 : Nat
  pending : List Nat
  nextId : Nat
deriving Repr, DecidableEq

/-- Body of the grow loops of `rtsafe_memory_pool_sleepy`
(memory_atomic.c:159-170 and 187-197): `n` iterations of
`node_ptr = malloc(...); list_add_tail(node_ptr, list);` where `n` is the
number of iterations `while (count < min_preallocated)` performs, namely
`min_preallocated - count` (every malloc succeeds).  Returns the grown list
and the new `nextId`. -/
def growN : Nat → List Nat → Nat → List Nat × Nat
  | 0, l, nextId => (l, nextId)
  | n + 1, l, nextId => growN n (l ++ [nextId]) (nextId + 1)

/-- The grow loop `while (count < min_preallocated) { malloc; add_tail; count++ }`
of `rtsafe_memory_pool_sleepy`, acting on either `pending` (thread-safe mode,
with the local `count`) or `unused` (non-thread-safe mode, with
`unused_count`).  Result: (list, new nextId, final count).  The loop runs
`minP - count` times and exits with `count = max count minP`. -/
def growLoop (minP : Nat) (l : List Nat) (nextId count : Nat) :
    List Nat × Nat × Nat :=
  ((growN (minP - count) l nextId).1, (growN (minP - count) l nextId).2,
    Nat.max count minP)

/-- Shrink loop of thread-safe `rtsafe_memory_pool_sleepy`
(memory_atomic.c:172-181):
`while (count > max_preallocated && !list_empty(&pool_ptr->pending))`
pop the pending head, `free` it, `count--`. -/
def tsShrink (maxP : Nat) : List Nat → Nat → List Nat × Nat
  | [], count => ([], count)
  | c :: rest, count =>
    if maxP < count then tsShrink maxP rest (count - 1) else (c :: rest, count)

/-- Shrink loop of non-thread-safe `rtsafe_memory_pool_sleepy`
(memory_atomic.c:199-209): `while (unused_count > max_preallocated)` pop the
unused head (after `assert(!list_empty(&pool_ptr->unused))`), `free` it,
`unused_count--`.  The loop condition only tests the count, so the model
recurses on the count; `List.tail [] = []` covers the (assert-guarded,
unreachable) empty case. -/
def ntsShrink (maxP : Nat) : List Nat → Nat → List Nat × Nat
  | l, 0 => (l, 0)
  | l, c + 1 =>
    if maxP < c + 1 then ntsShrink maxP l.tail c else (l, c + 1)

/-- Like `ntsShrink` but reporting the `assert(!list_empty(&pool_ptr->unused))`
of memory_atomic.c:201: `none` when the assert would fire. -/
def ntsShrinkChecked (maxP : Nat) : List Nat → Nat → Option (List Nat × Nat)
  | l, 0 => some (l, 0)
  | l, c + 1 =>
    if maxP < c + 1 then
      match l with
      | [] => none
      | _ :: rest => ntsShrinkChecked maxP rest c
    else some (l, c + 1)

/-- Replenishment loop of `rtsafe_memory_pool_allocate`
(memory_atomic.c:233-240):
`while (unused_count < min_preallocated && !list_empty(&pending))` move the
pending head to the unused tail.  NOTE: the C loop reuses the local variable
`node_ptr` for the moved node, so the function's return value after this loop
is the last moved chunk, not the chunk popped at line 225; the model tracks
that variable in `nodePtr`.  Result: (unused, pending, count, nodePtr). -/
def replenish (minP : Nat) :
    List Nat → List Nat → Nat → Nat → List Nat × List Nat × Nat × Nat
  | unused, [], count, nodePtr => (unused, [], count, nodePtr)
  | unused, c :: rest, count, nodePtr =>
    if count < minP then replenish minP (unused ++ [c]) rest (count + 1) c
    else (unused, c :: rest, count, nodePtr)

/-- Surplus-transfer loop of `rtsafe_memory_pool_deallocate`
(memory_atomic.c:265-274): `while (unused_count > max_preallocated)` move the
unused head (assert-guarded non-empty) to the pending tail.
Result: (unused, pending, count). -/
def surplus (maxP : Nat) :
    List Nat → List Nat → Nat → List Nat × List Nat × Nat
  | [], pending, count => ([], pending, count)
  | c :: rest, pending, count =>
    if maxP < count then surplus maxP rest (pending ++ [c]) (count - 1)
    else (c :: rest, pending, count)

/-- `rtsafe_memory_pool_sleepy` (memory_atomic.c:144-211), assuming every
`malloc` succeeds.  Thread-safe branch: baseline `count = unused_count2`, grow
`pending` up to `min_preallocated`, then shrink it down to `max_preallocated`;
the local `count` is discarded (the C code never writes it back).
Non-thread-safe branch: the same grow/shrink on `unused` / `unused_count`. -/
def rtsafe_memory_pool_sleepy (p : Pool) : Pool :=
  if p.enforceThreadSafety then
    let g := growLoop p.minPreallocated p.pending p.nextId p.unusedCount2
    let s := tsShrink p.maxPreallocated g.1 g.2.2
    { p with pending := s.1, nextId := g.2.1 }
  else
    let g := growLoop p.minPreallocated p.unused p.nextId p.unusedCount
    let s := ntsShrink p.maxPreallocated g.1 g.2.2
    { p with unused := s.1, unusedCount := s.2, nextId := g.2.1 }

/-- `rtsafe_memory_pool_sleepy` with its asserts: `none` iff the
`assert(min_preallocated < max_preallocated)` (memory_atomic.c:157, thread-safe
branch) or the `assert(!list_empty(&unused))` (memory_atomic.c:201,
non-thread-safe shrink loop) would fire. -/
def rtsafe_memory_pool_sleepy_checked (p : Pool) : Option Pool :=
  if p.enforceThreadSafety then
    if p.minPreallocated < p.maxPreallocated then
      some (rtsafe_memory_pool_sleepy p)
    else none
  else
    let g := growLoop p.minPreallocated p.unused p.nextId p.unusedCount
    match ntsShrinkChecked p.maxPreallocated g.1 g.2.2 with
    | none => none
    | some s =>
      some { p with unused := s.1, unusedCount := s.2, nextId := g.2.1 }

/-- The freshly `malloc`ed and field-initialized pool of
`rtsafe_memory_pool_create` (memory_atomic.c:64-91), before the maintenance
pass at line 93. -/
def initPool (dataSize minPre maxPre : Nat) (ts : Bool) : Pool :=
  { dataSize := dataSize, minPreallocated := minPre, maxPreallocated := maxPre,
    usedCount := 0, unused := [], unusedCount := 0,
    enforceThreadSafety := ts, unusedCount2 := 0, pending := [], nextId := 0 }

/-- `rtsafe_memory_pool_create` (memory_atomic.c:51-97), assuming the control
`malloc` and `pthread_mutex_init` succeed: initialize all fields, then run one
maintenance pass. -/
def rtsafe_memory_pool_create (dataSize minPre maxPre : Nat) (ts : Bool) :
    Pool :=
  rtsafe_memory_pool_sleepy (initPool dataSize minPre maxPre ts)

/-- `rtsafe_memory_pool_create` with its asserts: checks
`assert(min_preallocated <= max_preallocated)` (memory_atomic.c:62) and the
asserts of the maintenance pass it runs at line 93. -/
def rtsafe_memory_pool_create_checked (dataSize minPre maxPre : Nat)
    (ts : Bool) : Option Pool :=
  if minPre ≤ maxPre then
    rtsafe_memory_pool_sleepy_checked (initPool dataSize minPre maxPre ts)
  else none

/-- `rtsafe_memory_pool_allocate` (memory_atomic.c:214-248).  `tryOk` is the
outcome of the `pthread_mutex_trylock` at line 231.  Returns the value of
`node_ptr` at line 247 — which, when the replenishment loop moved at least one
chunk, is the last moved chunk rather than the chunk popped at line 225. -/
def rtsafe_memory_pool_allocate (tryOk : Bool) (p : Pool) :
    Option Nat × Pool :=
  match p.unused with
  | [] => (none, p)
  | c :: rest =>
    let p1 : Pool :=
      { p with unused := rest, unusedCount := p.unusedCount - 1,
               usedCount := p.usedCount + 1 }
    if p1.enforceThreadSafety && tryOk then
      let r := replenish p1.minPreallocated p1.unused p1.pending
                 p1.unusedCount c
      (some r.2.2.2,
        { p1 with unused := r.1, pending := r.2.1, unusedCount := r.2.2.1,
                  unusedCount2 := r.2.2.1 })
    else
      (some c, p1)

/-- `rtsafe_memory_pool_deallocate` (memory_atomic.c:251-280) of chunk `c`.
`tryOk` is the outcome of the `pthread_mutex_trylock` at line 263. -/
def rtsafe_memory_pool_deallocate (tryOk : Bool) (c : Nat) (p : Pool) : Pool :=
  let p1 : Pool :=
    { p with unused := p.unused ++ [c], usedCount := p.usedCount - 1,
             unusedCount := p.unusedCount + 1 }
  if p1.enforceThreadSafety && tryOk then
    let r := surplus p1.maxPreallocated p1.unused p1.pending p1.unusedCount
    { p1 with unused := r.1, pending := r.2.1, unusedCount := r.2.2,
              unusedCount2 := r.2.2 }
  else p1

/-- `rtsafe_memory_pool_allocate_sleepy` (memory_atomic.c:282-296):
`do { sleepy; allocate } while (data == NULL)`, with an explicit iteration
budget `fuel` so the (possibly diverging) C loop is a total function: `none`
means the loop has not returned within `fuel` iterations.  The trylock of the
embedded allocate succeeds (`tryOk = true`): no other thread holds the mutex
in the single-threaded model. -/
def rtsafe_memory_pool_allocate_sleepy : Nat → Pool → Option (Nat × Pool)
  | 0, _ => none
  | fuel + 1, p =>
    let p1 := rtsafe_memory_pool_sleepy p
    let r := rtsafe_memory_pool_allocate true p1
    match r.1 with
    | some c => some (c, r.2)
    | none => rtsafe_memory_pool_allocate_sleepy fuel r.2

/-- `n` consecutive `rtsafe_memory_pool_allocate` calls (uncontended mutex):
the list of returned values and the final pool. -/
def allocN : Nat → Pool → List (Option Nat) × Pool
  | 0, p => ([], p)
  | n + 1, p =>
    let r := rtsafe_memory_pool_allocate true p
    let rest := allocN n r.2
    (r.1 :: rest.1, rest.2)

/-- `n` consecutive `rtsafe_memory_pool_sleepy` calls. -/
def sleepyIter : Nat → Pool → Pool
  | 0, p => p
  | n + 1, p => sleepyIter n (rtsafe_memory_pool_sleepy p)

/-! ### The tiered allocator (`rtsafe_memory_*`, memory_atomic.c:298-470)

`DATA_MIN = 1024`, `DATA_SUB = 100`; pool `i` has chunk size
`1024 * 2^i - 100`; `sizeof(rtsafe_memory_pool_handle)` is 8 (64-bit). -/

/-- The size-class counting loop of `rtsafe_memory_init`
(memory_atomic.c:334-346): `pools_count = 1;
while ((DATA_MIN << pools_count) < max_size + DATA_SUB) { pools_count++;
if (pools_count > 64) fail; }`.  `k` is the current `pools_count` and `fuel`
the remaining increments before `pools_count` would exceed
`sizeof(size_t) * 8 = 64` (so the initial call uses `fuel = 63`, matching
`k = 1`); `none` is the `assert(0); goto fail_free` path. -/
def poolsCountAux (maxSize : Nat) : Nat → Nat → Option Nat
  | k, fuel =>
    if 1024 * 2 ^ k < maxSize + 100 then
      match fuel with
      | 0 => none
      | f + 1 => poolsCountAux maxSize (k + 1) f
    else some k

/-- `pools_count` computed by `rtsafe_memory_init` for a given `max_size`. -/
def poolsCount (maxSize : Nat) : Option Nat :=
  poolsCountAux maxSize 1 63

/-- The size-class table built by `rtsafe_memory_init`
(memory_atomic.c:354-377): pool `i` gets size `size - DATA_SUB` where `size`
starts at `DATA_MIN` and doubles per class, i.e. `1024 * 2^i - 100`. -/
def rtsafe_memory_pools_sizes (maxSize : Nat) : Option (List Nat) :=
  match poolsCount maxSize with
  | none => none
  | some count => some ((List.range count).map (fun i => 1024 * 2 ^ i - 100))

/-- Pool selection of `rtsafe_memory_allocate` (memory_atomic.c:413-448):
add `sizeof(rtsafe_memory_pool_handle) = 8` to the request, then linearly
scan for the first pool with `size <= pools[i].size`; `none` is the
`LOG_WARNING("Data size is too big"); return NULL` path (or an allocator that
failed to construct).  Returns the chosen pool's chunk size. -/
def rtsafe_memory_allocate_size (maxSize reqSize : Nat) : Option Nat :=
  match rtsafe_memory_pools_sizes maxSize with
  | none => none
  | some sizes => sizes.find? (fun sz => decide (reqSize + 8 ≤ sz))

/-- Outcome of `rtsafe_memory_init` (memory_atomic.c:314-391) as observed
through its side effects: the returned handle (the pool table as the list of
created class indices), which pool classes were created and later destroyed,
and whether the `pools` array and the `rtsafe_memory` struct were freed. -/
structure MemInitResult where
  handle : Option (List Nat)
  created : List Nat
  destroyed : List Nat
  freedPools : Bool
  freedStruct : Bool
deriving Repr, DecidableEq

/-- The cleanup loop of `rtsafe_memory_init` (memory_atomic.c:367-371):
`while (i > 0) { i--; rtsafe_memory_pool_destroy(pools[i]); }` — destroys
pools `i-1, i-2, ..., 0` in that order, appended to `acc`. -/
def destroyLoop : Nat → List Nat → List Nat
  | 0, acc => acc
  | i + 1, acc => destroyLoop i (acc ++ [i])

/-- The pool-creation loop of `rtsafe_memory_init` (memory_atomic.c:356-377).
`ok i` tells whether `rtsafe_memory_pool_create` succeeds for class `i`;
`r` is the number of remaining iterations (`pools_count - i`), `created` the
classes built so far.  On failure at class `i`: destroy classes `i-1 .. 0`,
free the pools array and the struct (`goto fail_free_pools`), return no
handle. -/
def initLoopAux (ok : Nat → Bool) : Nat → Nat → List Nat → MemInitResult
  | 0, _, created =>
    { handle := some created, created := created, destroyed := [],
      freedPools := false, freedStruct := false }
  | r + 1, i, created =>
    if ok i then initLoopAux ok r (i + 1) (created ++ [i])
    else
      { handle := none, created := created, destroyed := destroyLoop i [],
        freedPools := true, freedStruct := true }

/-- `rtsafe_memory_init` (memory_atomic.c:314-391), with the control-state
`malloc`s succeeding and pool creation for class `i` succeeding iff `ok i`. -/
def rtsafe_memory_init (maxSize : Nat) (ok : Nat → Bool) : MemInitResult :=
  match poolsCount maxSize with
  | none =>
    { handle := none, created := [], destroyed := [], freedPools := false,
      freedStruct := true }
  | some count => initLoopAux ok count 0 []

/-! ### Reachable pool states

A `Sys` is a pool together with the chunks currently handed out to the
application; `Reached` is the set of states reachable through the public API
from `rtsafe_memory_pool_create` (with the creation-time asserts satisfied,
since a debug build would refuse the other configurations), where
`deallocate` is only ever called with a chunk previously obtained from
`allocate` — the documented caller contract. -/

structure Sys where
  pool : Pool
  outstanding : List Nat
deriving Repr, DecidableEq

/-- States reachable from pool creation by any sequence of allocate /
deallocate / maintenance calls, with either trylock outcome. -/
inductive Reached : Sys → Prop where
  | create (dataSize minPre maxPre : Nat) (ts : Bool)
      (hle : minPre ≤ maxPre) (hlt : ts = true → minPre < maxPre) :
      Reached ⟨rtsafe_memory_pool_create dataSize minPre maxPre ts, []⟩
  | alloc (s : Sys) (tryOk : Bool) (c : Nat) (p : Pool) (hs : Reached s)
      (h : rtsafe_memory_pool_allocate tryOk s.pool = (some c, p)) :
      Reached ⟨p, c :: s.outstanding⟩
  | dealloc (s : Sys) (tryOk : Bool) (c : Nat) (hs : Reached s)
      (hc : c ∈ s.outstanding) :
      Reached ⟨rtsafe_memory_pool_deallocate tryOk c s.pool,
        s.outstanding.erase c⟩
  | sleepy (s : Sys) (hs : Reached s) :
      Reached ⟨rtsafe_memory_pool_sleepy s.pool, s.outstanding⟩

/-- The state invariant maintained by all reachable states (`p` is the pool,
`out` the chunks handed out to the application): counts mirror list lengths,
no chunk is in two places at once (the two free lists and the outstanding
chunks are pairwise disjoint and duplicate-free), live chunk ids are below
the `malloc` counter, a non-thread-safe pool never uses `pending`, and —
because `allocate` fails on an empty `unused` list and nothing else ever
moves chunks into `unused` — a thread-safe pool's `unused` list and
outstanding set stay empty forever. -/
structure PoolInv (p : Pool) (out : List Nat) : Prop where
  cntEq : p.unusedCount = p.unused.length
  usedEq : p.usedCount = out.length
  nodupU : p.unused.Nodup
  nodupP : p.pending.Nodup
  nodupO : out.Nodup
  dUP : ∀ x, x ∈ p.unused → x ∉ p.pending
  dUO : ∀ x, x ∈ p.unused → x ∉ out
  dPO : ∀ x, x ∈ p.pending → x ∉ out
  freshU : ∀ x, x ∈ p.unused → x < p.nextId
  freshP : ∀ x, x ∈ p.pending → x < p.nextId
  freshO : ∀ x, x ∈ out → x < p.nextId
  ntsPend : p.enforceThreadSafety = false → p.pending = []
  tsEmpty : p.enforceThreadSafety = true → p.unused = [] ∧ out = []
  minle : p.minPreallocated ≤ p.maxPreallocated
  tslt : p.enforceThreadSafety = true →
    p.minPreallocated < p.maxPreallocated

/-- A thread-safe pool state with one chunk (id 0) at the head of `unused`,
one staged chunk (id 1) on `pending`, and `min_preallocated = 2`, so that the
replenishment loop of `rtsafe_memory_pool_allocate` runs when the trylock
succeeds. -/
def replenishPool : Pool :=
  { dataSize := 0, minPreallocated := 2, maxPreallocated := 3, usedCount := 0,
    unused := [0], unusedCount := 1, enforceThreadSafety := true,
    unusedCount2 := 1, pending := [1], nextId := 2 }

/-! ### Loop characterization lemmas -/

theorem freshIds_length (s n : Nat) : (freshIds s n).length = n := by
  induction n generalizing s with
  | zero => rfl
  | succ n ih => simp [freshIds, ih]

theorem mem_freshIds {c : Nat} :
    ∀ {s n : Nat}, c ∈ freshIds s n ↔ s ≤ c ∧ c < s + n := by
  intro s n
  induction n generalizing s with
  | zero => simp [freshIds]
  | succ n ih =>
    simp only [freshIds, List.mem_cons, ih]
    omega

theorem freshIds_nodup (s n : Nat) : (freshIds s n).Nodup := by
  induction n generalizing s with
  | zero => simp [freshIds]
  | succ n ih =>
    simp only [freshIds, List.nodup_cons]
    refine ⟨fun h => ?_, ih (s + 1)⟩
    have := mem_freshIds.mp h
    omega

theorem growN_spec (n : Nat) :
    ∀ (l : List Nat) (nextId : Nat),
      growN n l nextId = (l ++ freshIds nextId n, nextId + n) := by
  induction n with
  | zero => intro l nextId; simp [growN, freshIds]
  | succ n ih =>
    intro l nextId
    rw [growN, ih]
    simp only [freshIds, Prod.mk.injEq, List.append_assoc, List.singleton_append]
    exact ⟨trivial, by omega⟩

theorem growLoop_spec (minP : Nat) (l : List Nat) (nextId count : Nat) :
    growLoop minP l nextId count =
      (l ++ freshIds nextId (minP - count), nextId + (minP - count),
        Nat.max count minP) := by
  simp [growLoop, growN_spec]

theorem tsShrink_sublist (maxP : Nat) :
    ∀ (l : List Nat) (count : Nat), (tsShrink maxP l count).1.Sublist l := by
  intro l
  induction l with
  | nil => intro count; simp [tsShrink]
  | cons c rest ih =>
    intro count
    rw [tsShrink]
    by_cases h : maxP < count
    · simp only [h, if_true]
      exact (ih (count - 1)).cons c
    · simp [h]

theorem tsShrink_of_le (maxP : Nat) (l : List Nat) (count : Nat)
    (h : count ≤ maxP) : tsShrink maxP l count = (l, count) := by
  cases l with
  | nil => rfl
  | cons c rest => simp [tsShrink, Nat.not_lt.mpr h]

theorem drop_succ_tail (l : List Nat) (n : Nat) :
    l.drop (n + 1) = l.tail.drop n := by
  cases l <;> simp

theorem ntsShrink_eq (maxP : Nat) :
    ∀ (count : Nat) (l : List Nat),
      ntsShrink maxP l count = (l.drop (count - maxP), count - (count - maxP)) := by
  intro count
  induction count with
  | zero => intro l; simp [ntsShrink]
  | succ c ih =>
    intro l
    rw [ntsShrink]
    by_cases h : maxP < c + 1
    · simp only [h, if_true, ih l.tail]
      have h1 : c + 1 - maxP = (c - maxP) + 1 := by omega
      rw [h1, drop_succ_tail]
      simp only [Prod.mk.injEq]
      exact ⟨trivial, by omega⟩
    · have h1 : c + 1 - maxP = 0 := by omega
      simp [h, h1]

theorem ntsShrinkChecked_eq_some (maxP : Nat) :
    ∀ (count : Nat) (l : List Nat), count = l.length →
      ntsShrinkChecked maxP l count = some (ntsShrink maxP l count) := by
  intro count
  induction count with
  | zero => intro l _; simp [ntsShrinkChecked, ntsShrink]
  | succ c ih =>
    intro l hl
    cases l with
    | nil => simp at hl
    | cons x rest =>
      rw [ntsShrinkChecked, ntsShrink]
      by_cases h : maxP < c + 1
      · simp only [h, if_true, List.tail_cons]
        exact ih rest (by simpa using hl)
      · simp [h]

/-! ### Operation-level unfolding lemmas -/

theorem allocate_of_empty (tryOk : Bool) (p : Pool) (hu : p.unused = []) :
    rtsafe_memory_pool_allocate tryOk p = (none, p) := by
  simp [rtsafe_memory_pool_allocate, hu]

theorem allocate_nts (tryOk : Bool) (p : Pool) (c : Nat) (rest : List Nat)
    (hts : p.enforceThreadSafety = false) (hu : p.unused = c :: rest) :
    rtsafe_memory_pool_allocate tryOk p =
      (some c, { p with unused := rest, unusedCount := p.unusedCount - 1,
                        usedCount := p.usedCount + 1 }) := by
  simp [rtsafe_memory_pool_allocate, hu, hts]

theorem deallocate_nts (tryOk : Bool) (c : Nat) (p : Pool)
    (hts : p.enforceThreadSafety = false) :
    rtsafe_memory_pool_deallocate tryOk c p =
      { p with unused := p.unused ++ [c], usedCount := p.usedCount - 1,
               unusedCount := p.unusedCount + 1 } := by
  simp [rtsafe_memory_pool_deallocate, hts]

theorem sleepy_ts_eq (p : Pool) (hts : p.enforceThreadSafety = true) :
    rtsafe_memory_pool_sleepy p =
      { p with
        pending := (tsShrink p.maxPreallocated
          (p.pending ++ freshIds p.nextId
            (p.minPreallocated - p.unusedCount2))
          (Nat.max p.unusedCount2 p.minPreallocated)).1,
        nextId := p.nextId + (p.minPreallocated - p.unusedCount2) } := by
  simp [rtsafe_memory_pool_sleepy, hts, growLoop_spec]

theorem sleepy_nts_eq (p : Pool) (hts : p.enforceThreadSafety = false) :
    rtsafe_memory_pool_sleepy p =
      { p with
        unused := (ntsShrink p.maxPreallocated
          (p.unused ++ freshIds p.nextId
            (p.minPreallocated - p.unusedCount))
          (Nat.max p.unusedCount p.minPreallocated)).1,
        unusedCount := (ntsShrink p.maxPreallocated
          (p.unused ++ freshIds p.nextId
            (p.minPreallocated - p.unusedCount))
          (Nat.max p.unusedCount p.minPreallocated)).2,
        nextId := p.nextId + (p.minPreallocated - p.unusedCount) } := by
  simp [rtsafe_memory_pool_sleepy, hts, growLoop_spec]

/-! ### Preservation of the invariant -/

theorem initPool_inv (dataSize minPre maxPre : Nat) (ts : Bool)
    (hle : minPre ≤ maxPre) (hlt : ts = true → minPre < maxPre) :
    PoolInv (initPool dataSize minPre maxPre ts) [] := by
  constructor <;> simp [initPool] <;> assumption

theorem sleepy_inv (p : Pool) (out : List Nat) (h : PoolInv p out) :
    PoolInv (rtsafe_memory_pool_sleepy p) out := by
  by_cases hts : p.enforceThreadSafety
  · -- thread-safe: only `pending` and `nextId` change
    obtain ⟨hU, hO⟩ := h.tsEmpty hts
    rw [sleepy_ts_eq p hts]
    set k := p.minPreallocated - p.unusedCount2 with hk
    have hsub : (tsShrink p.maxPreallocated (p.pending ++ freshIds p.nextId k)
        (Nat.max p.unusedCount2 p.minPreallocated)).1.Sublist
        (p.pending ++ freshIds p.nextId k) :=
      tsShrink_sublist _ _ _
    have hmem : ∀ x, x ∈ (tsShrink p.maxPreallocated
        (p.pending ++ freshIds p.nextId k)
        (Nat.max p.unusedCount2 p.minPreallocated)).1 →
        x ∈ p.pending ++ freshIds p.nextId k :=
      fun x hx => hsub.subset hx
    have hgrownNodup : (p.pending ++ freshIds p.nextId k).Nodup := by
      rw [List.nodup_append]
      refine ⟨h.nodupP, freshIds_nodup _ _, fun x hx hx' => ?_⟩
      have := h.freshP x hx
      have := mem_freshIds.mp hx'
      omega
    constructor
    · exact h.cntEq
    · exact h.usedEq
    · exact h.nodupU
    · exact hgrownNodup.sublist hsub
    · exact h.nodupO
    · intro x hx; rw [hU] at hx; exact absurd hx (List.not_mem_nil x)
    · intro x hx; rw [hU] at hx; exact absurd hx (List.not_mem_nil x)
    · intro x hx; rw [hO]; exact List.not_mem_nil x
    · intro x hx; rw [hU] at hx; exact absurd hx (List.not_mem_nil x)
    · intro x hx
      show x < p.nextId + k
      rcases List.mem_append.mp (hmem x hx) with h1 | h1
      · have := h.freshP x h1; omega
      · have := mem_freshIds.mp h1; omega
    · intro x hx
      show x < p.nextId + k
      have := h.freshO x hx; omega
    · intro hf; rw [hts] at hf; exact absurd hf (by simp)
    · intro _; exact ⟨hU, hO⟩
    · exact h.minle
    · intro _; exact h.tslt hts
  · -- non-thread-safe: only `unused`, `unusedCount`, `nextId` change
    have hts' : p.enforceThreadSafety = false := by simpa using hts
    have hP : p.pending = [] := h.ntsPend hts'
    rw [sleepy_nts_eq p hts']
    set k := p.minPreallocated - p.unusedCount with hk
    set u1 := p.unused ++ freshIds p.nextId k with hu1
    set c1 := Nat.max p.unusedCount p.minPreallocated with hc1
    have hlen1 : u1.length = c1 := by
      have hc := h.cntEq
      rw [hu1, List.length_append, freshIds_length, hk, hc1]
      show p.unused.length + (p.minPreallocated - p.unusedCount) =
        max p.unusedCount p.minPreallocated
      omega
    rw [ntsShrink_eq]
    set m := c1 - p.maxPreallocated with hm
    have hu1Nodup : u1.Nodup := by
      rw [hu1, List.nodup_append]
      refine ⟨h.nodupU, freshIds_nodup _ _, fun x hx hx' => ?_⟩
      have := h.freshU x hx
      have := mem_freshIds.mp hx'
      omega
    have hmem2 : ∀ x, x ∈ u1.drop m → x ∈ u1 := fun x hx =>
      List.drop_subset m u1 hx
    have hmemu1 : ∀ x, x ∈ u1 → x < p.nextId + k := by
      intro x hx
      rcases List.mem_append.mp (by rw [hu1] at hx; exact hx) with h1 | h1
      · have := h.freshU x h1; omega
      · have := mem_freshIds.mp h1; omega
    constructor
    · show c1 - m = (u1.drop m).length
      rw [List.length_drop, hlen1]
    · exact h.usedEq
    · exact hu1Nodup.sublist (List.drop_sublist m u1)
    · exact h.nodupP
    · exact h.nodupO
    · intro x hx
      rw [hP]
      exact List.not_mem_nil x
    · intro x hx
      rcases List.mem_append.mp
          (by rw [hu1] at hmem2; exact hmem2 x hx) with h1 | h1
      · exact h.dUO x h1
      · intro hx'
        have := mem_freshIds.mp h1
        have := h.freshO x hx'
        omega
    · intro x hx; rw [hP] at hx; exact absurd hx (List.not_mem_nil x)
    · intro x hx
      show x < p.nextId + k
      exact hmemu1 x (hmem2 x hx)
    · intro x hx
      show x < p.nextId + k
      rw [hP] at hx; exact absurd hx (List.not_mem_nil x)
    · intro x hx
      show x < p.nextId + k
      have := h.freshO x hx; omega
    · intro _; exact hP
    · intro hf; rw [hts'] at hf; exact absurd hf (by simp)
    · exact h.minle
    · intro hf; rw [hts'] at hf; exact absurd hf (by simp)

theorem allocate_inv (p : Pool) (out : List Nat) (tryOk : Bool) (c : Nat)
    (q : Pool) (h : PoolInv p out)
    (ha : rtsafe_memory_pool_allocate tryOk p = (some c, q)) :
    PoolInv q (c :: out) := by
  by_cases hts : p.enforceThreadSafety
  · obtain ⟨hU, _⟩ := h.tsEmpty hts
    rw [allocate_of_empty tryOk p hU] at ha
    simp at ha
  · have hts' : p.enforceThreadSafety = false := by simpa using hts
    cases hu : p.unused with
    | nil =>
      rw [allocate_of_empty tryOk p hu] at ha
      simp at ha
    | cons c0 rest =>
      rw [allocate_nts tryOk p c0 rest hts' hu] at ha
      injection ha with h1 h2
      injection h1 with h1
      subst h1
      subst h2
      have hcnt := h.cntEq
      rw [hu] at hcnt
      have hnodupU := h.nodupU
      rw [hu] at hnodupU
      have hc0unused : c0 ∈ p.unused := by rw [hu]; exact List.mem_cons_self c0 rest
      have hrest : ∀ x, x ∈ rest → x ∈ p.unused := by
        intro x hx; rw [hu]; exact List.mem_cons_of_mem c0 hx
      constructor
      · show p.unusedCount - 1 = rest.length
        simp at hcnt
        omega
      · show p.usedCount + 1 = (c0 :: out).length
        rw [h.usedEq]
        simp
      · exact hnodupU.of_cons
      · exact h.nodupP
      · exact List.nodup_cons.mpr ⟨h.dUO c0 hc0unused, h.nodupO⟩
      · intro x hx
        exact h.dUP x (hrest x hx)
      · intro x hx
        rw [List.mem_cons, not_or]
        refine ⟨fun he => ?_, h.dUO x (hrest x hx)⟩
        subst he
        exact (List.nodup_cons.mp hnodupU).1 hx
      · intro x hx
        rw [List.mem_cons, not_or]
        refine ⟨fun he => ?_, h.dPO x hx⟩
        subst he
        exact h.dUP x hc0unused hx
      · intro x hx
        exact h.freshU x (hrest x hx)
      · exact h.freshP
      · intro x hx
        rcases List.mem_cons.mp hx with he | hx'
        · subst he; exact h.freshU x hc0unused
        · exact h.freshO x hx'
      · intro _; exact h.ntsPend hts'
      · intro hf; simp [hts'] at hf
      · exact h.minle
      · intro hf; simp [hts'] at hf

theorem deallocate_inv (p : Pool) (out : List Nat) (tryOk : Bool) (c : Nat)
    (h : PoolInv p out) (hc : c ∈ out) :
    PoolInv (rtsafe_memory_pool_deallocate tryOk c p) (out.erase c) := by
  by_cases hts : p.enforceThreadSafety
  · obtain ⟨_, hO⟩ := h.tsEmpty hts
    rw [hO] at hc
    exact absurd hc (List.not_mem_nil c)
  · have hts' : p.enforceThreadSafety = false := by simpa using hts
    rw [deallocate_nts tryOk c p hts']
    have houtlen : 1 ≤ out.length := List.length_pos.mpr (List.ne_nil_of_mem hc)
    constructor
    · show p.unusedCount + 1 = (p.unused ++ [c]).length
      rw [List.length_append, h.cntEq]
      simp
    · show p.usedCount - 1 = (out.erase c).length
      rw [List.length_erase_of_mem hc, h.usedEq]
    · rw [List.nodup_append]
      refine ⟨h.nodupU, List.nodup_singleton c, fun x hx hx' => ?_⟩
      rw [List.mem_singleton] at hx'
      subst hx'
      exact h.dUO x hx hc
    · exact h.nodupP
    · exact h.nodupO.erase c
    · intro x hx
      rcases List.mem_append.mp hx with hx' | hx'
      · exact h.dUP x hx'
      · rw [List.mem_singleton] at hx'
        subst hx'
        exact fun hp => h.dPO x hp hc
    · intro x hx
      rcases List.mem_append.mp hx with hx' | hx'
      · exact fun he => h.dUO x hx' (List.mem_of_mem_erase he)
      · rw [List.mem_singleton] at hx'
        subst hx'
        intro he
        exact ((h.nodupO.mem_erase_iff).mp he).1 rfl
    · intro x hx he
      exact h.dPO x hx (List.mem_of_mem_erase he)
    · intro x hx
      rcases List.mem_append.mp hx with hx' | hx'
      · exact h.freshU x hx'
      · rw [List.mem_singleton] at hx'
        subst hx'
        exact h.freshO x hc
    · exact h.freshP
    · intro x hx
      exact h.freshO x (List.mem_of_mem_erase hx)
    · intro _; exact h.ntsPend hts'
    · intro hf; simp [hts'] at hf
    · exact h.minle
    · intro hf; simp [hts'] at hf

/-- Every reachable state satisfies the pool invariant. -/
theorem reached_inv (s : Sys) (h : Reached s) :
    PoolInv s.pool s.outstanding := by
  induction h with
  | create dataSize minPre maxPre ts hle hlt =>
    exact sleepy_inv _ _ (initPool_inv dataSize minPre maxPre ts hle hlt)
  | alloc s tryOk c p hs ha ih => exact allocate_inv s.pool s.outstanding tryOk c p ih ha
  | dealloc s tryOk c hs hc ih => exact deallocate_inv s.pool s.outstanding tryOk c ih hc
  | sleepy s hs ih => exact sleepy_inv s.pool s.outstanding ih

/-! ### Further helper lemmas for the claims -/

theorem grown_length (p : Pool) (hcnt : p.unusedCount = p.unused.length) :
    (p.unused ++ freshIds p.nextId
        (p.minPreallocated - p.unusedCount)).length =
      Nat.max p.unusedCount p.minPreallocated := by
  rw [List.length_append, freshIds_length]
  show _ = max p.unusedCount p.minPreallocated
  omega

/-- Under the reachable-state preconditions, the asserts of
`rtsafe_memory_pool_sleepy` hold: the checked variant succeeds and agrees
with the plain one. -/
theorem sleepyChecked_eq (p : Pool)
    (hcnt : p.unusedCount = p.unused.length)
    (hts : p.enforceThreadSafety = true →
      p.minPreallocated < p.maxPreallocated) :
    rtsafe_memory_pool_sleepy_checked p =
      some (rtsafe_memory_pool_sleepy p) := by
  by_cases h : p.enforceThreadSafety
  · simp [rtsafe_memory_pool_sleepy_checked, h, hts h]
  · have h' : p.enforceThreadSafety = false := by simpa using h
    rw [rtsafe_memory_pool_sleepy_checked, rtsafe_memory_pool_sleepy, h']
    simp only [Bool.false_eq_true, if_false, growLoop_spec]
    rw [← grown_length p hcnt,
      ntsShrinkChecked_eq_some p.maxPreallocated _ _ rfl]

theorem allocN_nts :
    ∀ (u : List Nat) (p : Pool), p.enforceThreadSafety = false →
      p.unused = u →
      (∀ r, r ∈ (allocN u.length p).1 → r.isSome = true) ∧
      (allocN u.length p).2.unused = [] ∧
      (allocN u.length p).2.unusedCount = p.unusedCount - u.length ∧
      (allocN u.length p).2.usedCount = p.usedCount + u.length := by
  intro u
  induction u with
  | nil =>
    intro p hts hu
    exact ⟨fun r hr => absurd hr (List.not_mem_nil r), hu, rfl, rfl⟩
  | cons c0 rest ih =>
    intro p hts hu
    have ha := allocate_nts true p c0 rest hts hu
    obtain ⟨ih1, ih2, ih3, ih4⟩ :=
      ih { p with unused := rest, unusedCount := p.unusedCount - 1,
                  usedCount := p.usedCount + 1 } hts rfl
    have hstep : allocN (c0 :: rest).length p =
        (some c0 :: (allocN rest.length
            { p with unused := rest, unusedCount := p.unusedCount - 1,
                     usedCount := p.usedCount + 1 }).1,
          (allocN rest.length
            { p with unused := rest, unusedCount := p.unusedCount - 1,
                     usedCount := p.usedCount + 1 }).2) := by
      show allocN (rest.length + 1) p = _
      rw [allocN, ha]
    rw [hstep]
    refine ⟨?_, ih2, ?_, ?_⟩
    · intro r hr
      rcases List.mem_cons.mp hr with he | hr'
      · subst he; rfl
      · exact ih1 r hr'
    · rw [ih3]
      show p.unusedCount - 1 - rest.length = p.unusedCount - (rest.length + 1)
      omega
    · rw [ih4]
      show p.usedCount + 1 + rest.length = p.usedCount + (rest.length + 1)
      omega

/-- In a thread-safe pool whose `unused` list is empty,
`rtsafe_memory_pool_allocate_sleepy` never returns: maintenance only feeds
`pending`, and allocate fails before ever touching `pending`. -/
theorem allocSleepy_none_aux :
    ∀ (fuel : Nat) (p : Pool), p.enforceThreadSafety = true →
      p.unused = [] → rtsafe_memory_pool_allocate_sleepy fuel p = none := by
  intro fuel
  induction fuel with
  | zero => intro p _ _; rfl
  | succ fuel ih =>
    intro p hts hu
    have h1 : (rtsafe_memory_pool_sleepy p).enforceThreadSafety = true := by
      rw [sleepy_ts_eq p hts]; exact hts
    have h2 : (rtsafe_memory_pool_sleepy p).unused = [] := by
      rw [sleepy_ts_eq p hts]; exact hu
    rw [rtsafe_memory_pool_allocate_sleepy,
      allocate_of_empty true (rtsafe_memory_pool_sleepy p) h2]
    exact ih (rtsafe_memory_pool_sleepy p) h1 h2

/-- One thread-safe maintenance pass with the stale baseline
`unused_count2 = 0` and `min = 1 < 2 = max` appends exactly one new chunk to
`pending`, whatever `pending` already holds. -/
theorem sleepy_ts_stale (p : Pool) (hts : p.enforceThreadSafety = true)
    (h2 : p.unusedCount2 = 0) (hmin : p.minPreallocated = 1)
    (hmax : p.maxPreallocated = 2) :
    rtsafe_memory_pool_sleepy p =
      { p with pending := p.pending ++ [p.nextId],
               nextId := p.nextId + 1 } := by
  rw [sleepy_ts_eq p hts, h2, hmin, hmax]
  norm_num [freshIds]
  rw [tsShrink_of_le 2 _ 1 (by omega)]

theorem sleepyIter_stale :
    ∀ (n : Nat) (p : Pool), p.enforceThreadSafety = true →
      p.unusedCount2 = 0 → p.minPreallocated = 1 → p.maxPreallocated = 2 →
      sleepyIter n p =
        { p with pending := p.pending ++ freshIds p.nextId n,
                 nextId := p.nextId + n } := by
  intro n
  induction n with
  | zero =>
    intro p _ _ _ _
    show p = _
    simp [freshIds]
  | succ n ih =>
    intro p hts h2 hmin hmax
    rw [sleepyIter, sleepy_ts_stale p hts h2 hmin hmax,
      ih { p with pending := p.pending ++ [p.nextId],
                  nextId := p.nextId + 1 } hts h2 hmin hmax]
    dsimp only
    rw [List.append_assoc, List.singleton_append,
      show p.nextId + 1 + n = p.nextId + (n + 1) from by omega]
    rfl

theorem destroyLoop_eq :
    ∀ (n : Nat) (acc : List Nat),
      destroyLoop n acc = acc ++ (List.range n).reverse := by
  intro n
  induction n with
  | zero => intro acc; simp [destroyLoop]
  | succ n ih =>
    intro acc
    rw [destroyLoop, ih, List.range_succ]
    simp

theorem initLoopAux_fail (ok : Nat → Bool) (count j : Nat) (hj : j < count)
    (hfail : ok j = false) (hok : ∀ i, i < j → ok i = true) :
    ∀ (d i : Nat), j - i = d → i ≤ j →
      initLoopAux ok (count - i) i (List.range i) =
        { handle := none, created := List.range j,
          destroyed := (List.range j).reverse, freedPools := true,
          freedStruct := true } := by
  intro d
  induction d with
  | zero =>
    intro i hd hij
    have hij' : i = j := by omega
    subst hij'
    obtain ⟨r, hr⟩ : ∃ r, count - i = r + 1 := ⟨count - i - 1, by omega⟩
    rw [hr, initLoopAux, hfail]
    simp [destroyLoop_eq]
  | succ d ih =>
    intro i hd hij
    have hij' : i < j := by omega
    obtain ⟨r, hr⟩ : ∃ r, count - i = r + 1 := ⟨count - i - 1, by omega⟩
    rw [hr, initLoopAux, hok i hij', ← List.range_succ]
    have hre : r = count - (i + 1) := by omega
    rw [hre]
    exact ih (i + 1) (by omega) (by omega)

/-! ### Claim theorems -/

/-- Claim C1 (code-bug evaluation): the claim says allocate returns a pointer
to exactly the chunk popped from the head of the unused list, regardless of
whether the opportunistic replenishment step runs.  On `replenishPool` (head
chunk 0 on `unused`, chunk 1 staged on `pending`, `min_preallocated = 2`) the
code pops chunk 0 but — because the replenishment loop reuses `node_ptr` —
returns chunk 1, which at that moment is linked into the unused list; with
the trylock failing (no replenishment) it returns the popped chunk 0 as
claimed. -/
theorem allocate_replenish_returns_moved_chunk :
    replenishPool.unused = [0] ∧
    (rtsafe_memory_pool_allocate true replenishPool).1 = some 1 ∧
    1 ∈ (rtsafe_memory_pool_allocate true replenishPool).2.unused ∧
    (rtsafe_memory_pool_allocate true replenishPool).2.usedCount = 1 ∧
    (rtsafe_memory_pool_allocate true replenishPool).2.unusedCount = 1 ∧
    (rtsafe_memory_pool_allocate false replenishPool).1 = some 0 := by
  decide

/-- Claim C2: in every reachable pool state, no outstanding chunk (one
returned by a successful allocate and not yet deallocated) is a member of the
unused or pending list, and no chunk is in both lists at once. -/
theorem allocate_never_returns_listed_chunk (s : Sys) (h : Reached s) :
    (∀ c, c ∈ s.outstanding → c ∉ s.pool.unused ∧ c ∉ s.pool.pending) ∧
    (∀ c, c ∈ s.pool.unused → c ∉ s.pool.pending) := by
  have inv := reached_inv s h
  exact ⟨fun c hc =>
    ⟨fun hu => inv.dUO c hu hc, fun hp => inv.dPO c hp hc⟩, inv.dUP⟩

/-- Witness for C2 at a concrete reachable state. -/
theorem allocate_never_returns_listed_chunk_witness :
    (∀ c, c ∈ (Sys.mk (rtsafe_memory_pool_create 0 1 2 true) []).outstanding →
      c ∉ (Sys.mk (rtsafe_memory_pool_create 0 1 2 true) []).pool.unused ∧
      c ∉ (Sys.mk (rtsafe_memory_pool_create 0 1 2 true) []).pool.pending) ∧
    (∀ c, c ∈ (Sys.mk (rtsafe_memory_pool_create 0 1 2 true) []).pool.unused →
      c ∉ (Sys.mk (rtsafe_memory_pool_create 0 1 2 true) []).pool.pending) :=
  allocate_never_returns_listed_chunk
    ⟨rtsafe_memory_pool_create 0 1 2 true, []⟩
    (Reached.create 0 1 2 true (by decide) (fun _ => by decide))

/-- Claim C3 (code-bug evaluation): on a freshly created thread-safe pool
with `min = 1`, `max = 2`, every further maintenance call appends one more
chunk to the pending list (the baseline `unused_count2` is never updated), so
after `n` extra calls the staging count is `n + 1`: the counts do not
converge into `[min, max]` and repeated calls never stop changing the pool. -/
theorem sleepy_thread_safe_never_converges (n : Nat) :
    (sleepyIter n (rtsafe_memory_pool_create 0 1 2 true)).pending.length =
      n + 1 ∧
    (sleepyIter n (rtsafe_memory_pool_create 0 1 2 true)).maxPreallocated =
      2 := by
  rw [show rtsafe_memory_pool_create 0 1 2 true =
      { dataSize := 0, minPreallocated := 1, maxPreallocated := 2,
        usedCount := 0, unused := [], unusedCount := 0,
        enforceThreadSafety := true, unusedCount2 := 0, pending := [0],
        nextId := 1 } from by decide]
  rw [sleepyIter_stale n _ rfl rfl rfl rfl]
  dsimp only
  constructor
  · rw [List.length_append, freshIds_length]
    simp
    omega
  · rfl

/-- Claim C4 (code-bug evaluation): on a freshly created thread-safe pool
(min = 1 > 0, all system allocations succeeding), the
maintenance-then-allocate loop of `rtsafe_memory_pool_allocate_sleepy` never
returns, for any iteration budget: maintenance only stocks `pending` and
allocate fails on the forever-empty `unused` list. -/
theorem allocate_sleepy_thread_safe_never_succeeds (fuel : Nat) :
    rtsafe_memory_pool_allocate_sleepy fuel
      (rtsafe_memory_pool_create 0 1 2 true) = none := by
  apply allocSleepy_none_aux
  · decide
  · decide

/-- Claim C5 (code-bug evaluation): with `max_size = 4096` the size-class
table is `[924, 1948, 3996]`, so a request of exactly `max_size` bytes (4096,
plus the 8-byte pool-handle header) exceeds the largest pool's chunk size and
is rejected as an oversized request, contrary to the claim (and to the
`DATA_MIN * (2 ^ POOLS_COUNT) - DATA_SUB` comment at memory_atomic.c:298). -/
theorem memory_allocate_rejects_max_size :
    rtsafe_memory_pools_sizes 4096 = some [924, 1948, 3996] ∧
    rtsafe_memory_allocate_size 4096 4096 = none ∧
    rtsafe_memory_allocate_size 4096 900 = some 924 := by
  decide

/-- Claim C6: a freshly created thread-safe pool with
`0 < min_preallocated < max_preallocated` has all its preallocated chunks on
the pending staging list and an empty unused list, so its first allocate call
returns null (whether or not the opportunistic trylock succeeds). -/
theorem fresh_thread_safe_pool_first_allocate_none
    (dataSize minPre maxPre : Nat) (tryOk : Bool)
    (hmin : 0 < minPre) (hlt : minPre < maxPre) :
    (rtsafe_memory_pool_create dataSize minPre maxPre true).unused = [] ∧
    (rtsafe_memory_pool_create dataSize minPre maxPre true).pending.length =
      minPre ∧
    (rtsafe_memory_pool_allocate tryOk
      (rtsafe_memory_pool_create dataSize minPre maxPre true)).1 = none := by
  have hts : (initPool dataSize minPre maxPre true).enforceThreadSafety =
      true := rfl
  have hcreate : rtsafe_memory_pool_create dataSize minPre maxPre true =
      { initPool dataSize minPre maxPre true with
        pending := freshIds 0 minPre, nextId := minPre } := by
    rw [rtsafe_memory_pool_create, sleepy_ts_eq _ hts]
    dsimp only [initPool]
    rw [List.nil_append, Nat.sub_zero, Nat.zero_add,
      show Nat.max 0 minPre = minPre from by
        show max 0 minPre = minPre; omega,
      tsShrink_of_le maxPre _ minPre (Nat.le_of_lt hlt)]
  rw [hcreate]
  refine ⟨rfl, ?_, ?_⟩
  · show (freshIds 0 minPre).length = minPre
    exact freshIds_length 0 minPre
  · exact congrArg Prod.fst (allocate_of_empty tryOk _ rfl)

/-- Witness for C6 at `data_size = 0`, `min = 1`, `max = 2`. -/
theorem fresh_thread_safe_pool_first_allocate_none_witness :
    (rtsafe_memory_pool_create 0 1 2 true).unused = [] ∧
    (rtsafe_memory_pool_create 0 1 2 true).pending.length = 1 ∧
    (rtsafe_memory_pool_allocate true
      (rtsafe_memory_pool_create 0 1 2 true)).1 = none :=
  fresh_thread_safe_pool_first_allocate_none 0 1 2 true (by decide) (by decide)

/-- Claim C7: in every reachable pool state whose unused list holds exactly
`N` chunks with in-use count 0, `N` consecutive allocate calls all succeed,
the `(N+1)`-th returns null, and at that point the in-use count is `N` and
the unused count is 0. -/
theorem pool_exhaustion_boundary (s : Sys) (N : Nat) (h : Reached s)
    (hN : s.pool.unused.length = N) (hused : s.pool.usedCount = 0) :
    (∀ r, r ∈ (allocN N s.pool).1 → r.isSome = true) ∧
    (rtsafe_memory_pool_allocate true (allocN N s.pool).2).1 = none ∧
    (allocN N s.pool).2.usedCount = N ∧
    (allocN N s.pool).2.unusedCount = 0 := by
  have inv := reached_inv s h
  by_cases hts : s.pool.enforceThreadSafety
  · obtain ⟨hU, _⟩ := inv.tsEmpty hts
    have hN0 : N = 0 := by rw [hU] at hN; simpa using hN.symm
    subst hN0
    refine ⟨fun r hr => absurd hr (List.not_mem_nil r), ?_, hused, ?_⟩
    · show (rtsafe_memory_pool_allocate true s.pool).1 = none
      exact congrArg Prod.fst (allocate_of_empty true s.pool hU)
    · show s.pool.unusedCount = 0
      rw [inv.cntEq, hU]
      rfl
  · have hts' : s.pool.enforceThreadSafety = false := by simpa using hts
    obtain ⟨h1, h2, h3, h4⟩ := allocN_nts s.pool.unused s.pool hts' rfl
    rw [hN] at h1 h2 h3 h4
    refine ⟨h1, ?_, ?_, ?_⟩
    · exact congrArg Prod.fst (allocate_of_empty true _ h2)
    · rw [h4, hused, Nat.zero_add]
    · rw [h3, inv.cntEq, hN]
      omega

/-- Witness for C7 at a freshly created non-thread-safe pool preallocated
with exactly 2 chunks. -/
theorem pool_exhaustion_boundary_witness :
    (∀ r, r ∈ (allocN 2 (rtsafe_memory_pool_create 0 2 2 false)).1 →
      r.isSome = true) ∧
    (rtsafe_memory_pool_allocate true
      (allocN 2 (rtsafe_memory_pool_create 0 2 2 false)).2).1 = none ∧
    (allocN 2 (rtsafe_memory_pool_create 0 2 2 false)).2.usedCount = 2 ∧
    (allocN 2 (rtsafe_memory_pool_create 0 2 2 false)).2.unusedCount = 0 :=
  pool_exhaustion_boundary ⟨rtsafe_memory_pool_create 0 2 2 false, []⟩ 2
    (Reached.create 0 2 2 false (by decide) (fun h => absurd h (by decide)))
    (by decide) (by decide)

/-- Claim C8 counterexample: construction does not accept every configuration
with `min_preallocated <= max_preallocated` in thread-safe mode — with
`min = max = 1` (so `min <= max` holds) the maintenance pass run by
`rtsafe_memory_pool_create` trips the
`assert(min_preallocated < max_preallocated)` at memory_atomic.c:157. -/
theorem create_checked_min_eq_max_thread_safe_fails :
    rtsafe_memory_pool_create_checked 0 1 1 true = none ∧
    rtsafe_memory_pool_create_checked 0 1 1 false ≠ none := by
  decide

/-- Claim C8 amended: construction accepts `min <= max` for non-thread-safe
pools, but a thread-safe pool additionally requires the strict
`min < max`; under those preconditions every assertion of construction and
of the maintenance operation holds (the checked variants succeed and agree
with the plain ones), in construction and in every reachable state. -/
theorem pool_assertions_hold_amended :
    (∀ (dataSize minPre maxPre : Nat) (ts : Bool), minPre ≤ maxPre →
      (ts = true → minPre < maxPre) →
      rtsafe_memory_pool_create_checked dataSize minPre maxPre ts =
        some (rtsafe_memory_pool_create dataSize minPre maxPre ts)) ∧
    (∀ s : Sys, Reached s →
      rtsafe_memory_pool_sleepy_checked s.pool =
        some (rtsafe_memory_pool_sleepy s.pool)) := by
  constructor
  · intro dataSize minPre maxPre ts hle hlt
    rw [rtsafe_memory_pool_create_checked, if_pos hle,
      rtsafe_memory_pool_create]
    exact sleepyChecked_eq _ rfl hlt
  · intro s h
    have inv := reached_inv s h
    exact sleepyChecked_eq s.pool inv.cntEq inv.tslt

/-- Witness for the amended C8: a thread-safe construction with
`min = 1 < 2 = max` and a maintenance pass on a reachable non-thread-safe
pool, all assertions passing. -/
theorem pool_assertions_hold_amended_witness :
    rtsafe_memory_pool_create_checked 0 1 2 true =
      some (rtsafe_memory_pool_create 0 1 2 true) ∧
    rtsafe_memory_pool_sleepy_checked (rtsafe_memory_pool_create 0 2 2 false) =
      some (rtsafe_memory_pool_sleepy (rtsafe_memory_pool_create 0 2 2 false)) :=
  ⟨pool_assertions_hold_amended.1 0 1 2 true (by decide) (fun _ => by decide),
    pool_assertions_hold_amended.2 ⟨rtsafe_memory_pool_create 0 2 2 false, []⟩
      (Reached.create 0 2 2 false (by decide) (fun h => absurd h (by decide)))⟩

/-- Claim C9 counterexample: deallocate-then-allocate does not return the
same chunk in every reachable state.  Reachable via the public API: create a
non-thread-safe pool preallocated with chunks `[0, 1]`; allocate returns
chunk 0; deallocate(0) puts it at the tail of `unused`; the next allocate
pops the head and returns chunk 1, a different slot. -/
theorem dealloc_alloc_roundtrip_differs :
    (rtsafe_memory_pool_allocate true
      (rtsafe_memory_pool_create 0 2 2 false)).1 = some 0 ∧
    (rtsafe_memory_pool_allocate true (rtsafe_memory_pool_deallocate true 0
      (rtsafe_memory_pool_allocate true
        (rtsafe_memory_pool_create 0 2 2 false)).2)).1 = some 1 := by
  decide

/-- Claim C9 amended: the round-trip property holds exactly when the unused
list is empty after the allocation of `c` (in particular whenever the pool
was exhausted): then deallocate(c) followed by allocate returns `c` itself,
in every reachable pool state. -/
theorem dealloc_alloc_roundtrip_when_unused_empty (s : Sys) (c : Nat)
    (q : Pool) (h : Reached s)
    (ha : rtsafe_memory_pool_allocate true s.pool = (some c, q))
    (hq : q.unused = []) :
    (rtsafe_memory_pool_allocate true
      (rtsafe_memory_pool_deallocate true c q)).1 = some c := by
  have inv := reached_inv s h
  by_cases hts : s.pool.enforceThreadSafety
  · rw [allocate_of_empty true s.pool (inv.tsEmpty hts).1] at ha
    simp at ha
  · have hts' : s.pool.enforceThreadSafety = false := by simpa using hts
    cases hu : s.pool.unused with
    | nil =>
      rw [allocate_of_empty true s.pool hu] at ha
      simp at ha
    | cons c0 rest =>
      rw [allocate_nts true s.pool c0 rest hts' hu] at ha
      injection ha with h1 h2
      injection h1 with h1
      subst h1
      subst h2
      have hrest : rest = [] := hq
      subst hrest
      rw [deallocate_nts true c0
        { s.pool with unused := [], unusedCount := s.pool.unusedCount - 1,
                      usedCount := s.pool.usedCount + 1 } hts']
      refine congrArg Prod.fst (allocate_nts true _ c0 [] ?_ ?_)
      · exact hts'
      · rfl

/-- Witness for the amended C9. -/
theorem dealloc_alloc_roundtrip_when_unused_empty_witness :
    (rtsafe_memory_pool_allocate true (rtsafe_memory_pool_deallocate true 0
      (rtsafe_memory_pool_allocate true
        (rtsafe_memory_pool_create 0 1 1 false)).2)).1 = some 0 :=
  dealloc_alloc_roundtrip_when_unused_empty
    ⟨rtsafe_memory_pool_create 0 1 1 false, []⟩ 0
    (rtsafe_memory_pool_allocate true
      (rtsafe_memory_pool_create 0 1 1 false)).2
    (Reached.create 0 1 1 false (by decide) (fun h => absurd h (by decide)))
    (by decide) (by decide)

/-- Claim C10: if pool creation fails for some size class during
`rtsafe_memory_init`, every pool created earlier is destroyed (in reverse
creation order), the pool table and the control struct are freed, and no
handle is returned. -/
theorem memory_init_failure_cleanup (maxSize count j : Nat) (ok : Nat → Bool)
    (hc : poolsCount maxSize = some count) (hj : j < count)
    (hfail : ok j = false) (hok : ∀ i, i < j → ok i = true) :
    (rtsafe_memory_init maxSize ok).handle = none ∧
    (rtsafe_memory_init maxSize ok).created = List.range j ∧
    (rtsafe_memory_init maxSize ok).destroyed = (List.range j).reverse ∧
    (rtsafe_memory_init maxSize ok).freedPools = true ∧
    (rtsafe_memory_init maxSize ok).freedStruct = true := by
  have hrun : rtsafe_memory_init maxSize ok =
      { handle := none, created := List.range j,
        destroyed := (List.range j).reverse, freedPools := true,
        freedStruct := true } := by
    rw [rtsafe_memory_init, hc]
    have := initLoopAux_fail ok count j hj hfail hok j 0 (by omega)
      (by omega)
    rw [Nat.sub_zero, List.range_zero] at this
    exact this
  rw [hrun]
  exact ⟨rfl, rfl, rfl, rfl, rfl⟩

/-- Witness for C10: `max_size = 4096` (3 size classes), pool creation
failing at class 1. -/
theorem memory_init_failure_cleanup_witness :
    (rtsafe_memory_init 4096 (fun i => decide (i < 1))).handle = none ∧
    (rtsafe_memory_init 4096 (fun i => decide (i < 1))).created =
      List.range 1 ∧
    (rtsafe_memory_init 4096 (fun i => decide (i < 1))).destroyed =
      (List.range 1).reverse ∧
    (rtsafe_memory_init 4096 (fun i => decide (i < 1))).freedPools = true ∧
    (rtsafe_memory_init 4096 (fun i => decide (i < 1))).freedStruct = true :=
  memory_init_failure_cleanup 4096 3 1 (fun i => decide (i < 1)) (by decide)
    (by decide) (by decide) (fun i hi => decide_eq_true hi)

end MemoryAtomic
